import Mathlib

/-!
Verification of the termwm compositing core against its specification.

The definitions below are a shallow embedding of the Rust sources
(`src/buffer.rs`, `src/delaying.rs`, `src/input.rs`, `src/window.rs`,
`src/workspace.rs`).  Machine integers are modelled as `Nat` (or `Int`
where the source computes in `i32`), with explicit `% 65536` / `% 256`
at the places where Rust release-mode wrapping arithmetic applies.
Fallible operations (Rust panics: index out of bounds, `expect`,
slice-range failures) are modelled with `Option`, `none` standing for a
panic.  I/O sinks are modelled by oracles: a list of per-call results
for the pty writer, and a `Nat → Bool` success predicate indexed by
emission count for the terminal sink.
-/

/-- Modelled from the spec (section 3): the external VT parser's color type,
`Ansi(0..=255)` or `TrueColor(r,g,b)`, together with its `as_rgb` projection.
The crate that defines the palette is outside this repository; the concrete
palette values below follow the standard xterm 256-color formula and no claim
depends on them — the claims only use that `as_rgb` is a function. -/
inductive Color
  | ansi (n : Nat)
  | trueColor (r g b : Nat)
deriving DecidableEq, Repr

def stdPalette (n : Nat) : Nat × Nat × Nat :=
  if n < 16 then
    (if n % 8 ≥ 1 then 170 else 0, if n % 8 ≥ 2 then 170 else 0,
      if n % 8 ≥ 4 then 170 else 0)
  else if n < 232 then
    let m := n - 16
    (m / 36 * 40, m / 6 % 6 * 40, m % 6 * 40)
  else
    (8 + (n - 232) * 10, 8 + (n - 232) * 10, 8 + (n - 232) * 10)

def Color.as_rgb : Color → Nat × Nat × Nat
  | .ansi n => stdPalette n
  | .trueColor r g b => (r, g, b)

/-- `EFFECT_BOLD` from `buffer.rs`. -/
def EFFECT_BOLD : Nat := 1
/-- `EFFECT_UNDERLINE` from `buffer.rs`. -/
def EFFECT_UNDERLINE : Nat := 2

/-- The cell type `Char` from `buffer.rs` (named `Chr` here because `Char` is
taken by Lean's character type; the `content` field keeps Lean's `Char`). -/
structure Chr where
  content : Char
  flags : Nat
  bg : Color
  fg : Color
deriving DecidableEq, Repr

/-- `SPACE` from `buffer.rs`. -/
def SPACE : Chr := { content := ' ', flags := 0, bg := .ansi 0, fg := .ansi 7 }

/-- `Char::from(char)` from `buffer.rs`. -/
def Chr.fromChar (c : Char) : Chr := { content := c, flags := 0, bg := .ansi 0, fg := .ansi 7 }

/-- The `PartialEq` implementation of `Char` in `buffer.rs`: fieldwise equality
with the two colors compared through their `as_rgb` projection. -/
def Chr.beq (a b : Chr) : Bool :=
  a.content == b.content && a.flags == b.flags
    && a.bg.as_rgb == b.bg.as_rgb && a.fg.as_rgb == b.fg.as_rgb

/-- The `Buffer` struct from `buffer.rs`: `prev` is the pair
`(prev_valid, prev_cells)` flattened into two fields. -/
structure Buffer where
  prevValid : Bool
  prev : List Chr
  buf : List Chr
  width : Nat
  height : Nat
deriving DecidableEq, Repr

/-- `Buffer::new` from `buffer.rs`. -/
def Buffer.new (width height : Nat) : Buffer :=
  { prevValid := false
    prev := List.replicate (width * height) SPACE
    buf := List.replicate (width * height) SPACE
    width := width
    height := height }

/-- `Buffer::clear` from `buffer.rs`. -/
def Buffer.clear (b : Buffer) : Buffer :=
  { b with buf := List.replicate b.buf.length SPACE }

/-- `Buffer::translate` from `buffer.rs`: row-major index, with any
out-of-range coordinate mapped to the invalid sentinel `buf.len()`. -/
def Buffer.translate (b : Buffer) (x y : Nat) : Nat :=
  if x ≥ b.width then b.buf.length
  else if y ≥ b.height then b.buf.length
  else y * b.width + x

/-- `Buffer::set` from `buffer.rs`: write guarded by the sentinel check. -/
def Buffer.set (b : Buffer) (x y : Nat) (val : Chr) : Buffer :=
  let i := b.translate x y
  if i < b.buf.length then { b with buf := b.buf.set i val } else b

/-- Rust release-mode `u16` wrapping: reduce a `Nat` into `[0, 2^16)`. -/
def u16w (n : Nat) : Nat := n % 65536

/-- Rust release-mode wrapping subtraction on `u16` values. -/
def wsub16 (a b : Nat) : Nat := (a % 65536 + 65536 - b % 65536) % 65536

/-- Write `val` at positions `start, start+1, …` for `k` steps, panicking
(`none`) on an out-of-bounds index — the loop body `self.buf[i] = val` of
`Buffer::line`. -/
def setRun (v : Chr) : List Chr → Nat → Nat → Option (List Chr)
  | l, _, 0 => some l
  | l, start, k + 1 =>
    if start < l.length then setRun v (l.set start v) (start + 1) k else none

/-- `Buffer::line` from `buffer.rs`.  `x + len - 1` and `width - 1` are `u16`
expressions and wrap in release mode; the inclusive loop `start..=end` runs
only when `start ≤ end`.  `none` models a panic. -/
def Buffer.line (b : Buffer) (x y len : Nat) (val : Chr) : Option Buffer :=
  if y ≥ b.height then some b
  else
    let start := b.translate x y
    let e := min (b.translate (u16w (x + len + 65535)) y)
                 (b.translate (wsub16 b.width 1) y)
    if start ≤ e then
      (setRun val b.buf start (e + 1 - start)).map (fun l => { b with buf := l })
    else some b

/-- Overwrite `l` starting at `start` with the cells of `s` (callers have
already checked the range fits). -/
def writeAt (l : List Chr) (start : Nat) : List Chr → List Chr
  | [] => l
  | c :: cs => writeAt (l.set start c) (start + 1) cs

/-- `Buffer::copy_from` from `buffer.rs`.  `self.width as usize - x as usize`
is a `usize` subtraction: for `x > width` it wraps to a huge value in release
mode, so `len = slice.len()`; the subsequent slice `buf[start..start+len]`
panics (`none`) when the range end exceeds `buf.len()`. -/
def Buffer.copy_from (b : Buffer) (x y : Nat) (slice : List Chr) : Option Buffer :=
  if y ≥ b.height then some b
  else
    let start := b.translate x y
    let len := if x ≤ b.width then min slice.length (b.width - x) else slice.length
    if start + len ≤ b.buf.length then
      some { b with buf := writeAt b.buf start (slice.take len) }
    else none

/-- A cell used in counterexamples: a visible glyph differing from `SPACE`. -/
def chrA : Chr := { content := 'A', flags := 0, bg := .ansi 0, fg := .ansi 7 }

/-- C1: the spec claims `set`, `line` and `copy_from` with `x ≥ width` or
`y ≥ height` modify no cell and never panic.  `set` and `line` indeed
suppress such writes, but `copy_from` with `x > width`, `y < height` and a
non-empty slice panics: the sentinel index `buf.len()` flows into
`buf[start..start+len]` with `len = slice.len()` (the `width - x` clamp
underflows), an out-of-range slice.  This theorem evaluates the embedded
code on the failing input `Buffer::new(2,2).copy_from(3, 0, [SPACE])`
(first conjunct: panic), and confirms the guarded behaviour of the other
primitives at out-of-range inputs. -/
theorem c1_copy_from_oob :
    (Buffer.new 2 2).copy_from 3 0 [SPACE] = none ∧
    (Buffer.new 2 2).set 3 0 chrA = Buffer.new 2 2 ∧
    (Buffer.new 2 2).set 0 5 chrA = Buffer.new 2 2 ∧
    (Buffer.new 2 2).line 3 0 1 chrA = some (Buffer.new 2 2) ∧
    (Buffer.new 2 2).line 0 5 1 chrA = some (Buffer.new 2 2) ∧
    (Buffer.new 2 2).copy_from 0 5 [SPACE] = some (Buffer.new 2 2) ∧
    (Buffer.new 2 2).copy_from 2 0 [SPACE] = some (Buffer.new 2 2) := by
  decide

/-- One escape-sequence or character emission of `Buffer::draw` / `print_color`
in `buffer.rs`.  Every constructor corresponds to one `write!` call on the
sink; "zero bytes emitted" is "empty emission list". -/
inductive Emission
  | cursor (row col : Nat)
  | sgrReset
  | sgrBg (c : Color)
  | sgrFg (c : Color)
  | sgrBold
  | sgrUnderline
  | glyph (c : Char)
deriving DecidableEq, Repr

/-- The mutable locals of one `Buffer::draw` call: the emissions attempted so
far, the sink-call counter (index into the error oracle), and the three
"last emitted" shadows `last_flags`, `last_bg`, `last_fg`. -/
structure DrawSt where
  out : List Emission
  idx : Nat
  lastFlags : Option Nat
  lastBg : Option (Nat × Nat × Nat)
  lastFg : Option (Nat × Nat × Nat)
deriving DecidableEq, Repr

def DrawSt.init : DrawSt :=
  { out := [], idx := 0, lastFlags := none, lastBg := none, lastFg := none }

/-- Control outcome while drawing: still running, an I/O error propagated by a
`?`, or a Rust panic. -/
inductive DRes
  | ok (st : DrawSt)
  | ioerr (st : DrawSt)
  | panic (st : DrawSt)
deriving DecidableEq, Repr

def DRes.st : DRes → DrawSt
  | .ok st => st
  | .ioerr st => st
  | .panic st => st

def DRes.bind (r : DRes) (f : DrawSt → DRes) : DRes :=
  match r with
  | .ok st => f st
  | e => e

/-- A sink write whose result is checked with `?`: the attempt is recorded,
the oracle `o` decides whether this call succeeds. -/
def emitC (o : Nat → Bool) (st : DrawSt) (e : Emission) : DRes :=
  let st1 : DrawSt := { st with out := st.out ++ [e], idx := st.idx + 1 }
  if o st.idx then .ok st1 else .ioerr st1

/-- The one sink write whose result is discarded (the cursor-position
`write!` in `Buffer::draw` has no `?`): always continues. -/
def emitU (_o : Nat → Bool) (st : DrawSt) (e : Emission) : DrawSt :=
  { st with out := st.out ++ [e], idx := st.idx + 1 }

/-- `print_color` from `buffer.rs`, specialised to the two modes 48/38 by the
two emission constructors. -/
def emitColor (o : Nat → Bool) (st : DrawSt) (background : Bool) (c : Color) : DRes :=
  emitC o st (if background then .sgrBg c else .sgrFg c)

/-- The per-cell body of the inner `for col in buf` loop of `Buffer::draw`.
Note the source never assigns `last_flags = Some(col.flags)`: the first
branch leaves all three shadows untouched, and the second branch resets
`last_flags` to `None`. -/
def drawCell (o : Nat → Bool) (st : DrawSt) (c : Chr) : DRes :=
  let step :=
    if st.lastFlags ≠ some c.flags then
      (emitC o st .sgrReset).bind fun st1 =>
      (emitColor o st1 true c.bg).bind fun st2 =>
      (emitColor o st2 false c.fg).bind fun st3 =>
      if c.flags &&& EFFECT_BOLD = EFFECT_BOLD then emitC o st3 .sgrBold
      else if c.flags &&& EFFECT_UNDERLINE = EFFECT_UNDERLINE then emitC o st3 .sgrUnderline
      else .ok st3
    else
      let r1 :=
        if st.lastBg ≠ some c.bg.as_rgb then
          (emitColor o st true c.bg).bind fun st1 =>
            .ok { st1 with lastBg := some c.bg.as_rgb, lastFlags := none }
        else .ok st
      r1.bind fun st1 =>
        if st1.lastFg ≠ some c.fg.as_rgb then
          (emitColor o st1 false c.fg).bind fun st2 =>
            .ok { st2 with lastFg := some c.fg.as_rgb, lastFlags := none }
        else .ok st1
  step.bind fun st4 => emitC o st4 (.glyph c.content)

def drawRowCells (o : Nat → Bool) (st : DrawSt) : List Chr → DRes
  | [] => .ok st
  | c :: cs => (drawCell o st c).bind fun st1 => drawRowCells o st1 cs

/-- The `while buf[0] == prev[0]` skip loop of `Buffer::draw`.  `none` is the
panic of indexing an empty slice (reached exactly when the loop is entered
with nothing left, i.e. `width = 0` or a short `prev` row); `some none`
is `continue 'y` (whole row equal); `some (some (x, rest))` stops at column
`x` with `rest` the cells still to emit. -/
def skipEq : List Chr → List Chr → Nat → Option (Option (Nat × List Chr))
  | [], _, _ => none
  | _ :: _, [], _ => none
  | c :: cs, p :: ps, x =>
    if Chr.beq c p then
      match cs with
      | [] => some none
      | _ :: _ => skipEq cs ps (x + 1)
    else some (some (x, c :: cs))

/-- One iteration of the `'y` row loop of `Buffer::draw`, given the two row
slices. -/
def drawRow (o : Nat → Bool) (valid : Bool) (st : DrawSt) (y : Nat)
    (rowBuf rowPrev : List Chr) : DRes :=
  match (if valid then skipEq rowBuf rowPrev 0 else some (some (0, rowBuf))) with
  | none => .panic st
  | some none => .ok st
  | some (some (x, rest)) =>
    drawRowCells o (emitU o st (.cursor (y + 1) (x + 1))) rest

/-- The row loop of `Buffer::draw` over the remaining row indices.  The row
slices `&buf[start..end]` / `&prev[start..end]` panic when `end` exceeds the
backing vector. -/
def drawGo (o : Nat → Bool) (wdt : Nat) (bufL prevL : List Chr) (valid : Bool) :
    List Nat → DrawSt → DRes
  | [], st => .ok st
  | y :: ys, st =>
    let start := y * wdt
    if start + wdt ≤ bufL.length && start + wdt ≤ prevL.length then
      match drawRow o valid st y ((bufL.drop start).take wdt) ((prevL.drop start).take wdt) with
      | .ok st1 => drawGo o wdt bufL prevL valid ys st1
      | e => e
    else .panic st

/-- Result of a whole `Buffer::draw` call: on success the buffer with
`prev_valid = true` and `current`/`prev` swapped; an early `return Err`
leaves the buffer untouched. -/
inductive DrawOutcome
  | ok (b : Buffer)
  | ioerr
  | panic
deriving DecidableEq, Repr

/-- `Buffer::draw` from `buffer.rs`, against an emission-indexed sink oracle:
returns the list of attempted emissions and the outcome. -/
def Buffer.draw (b : Buffer) (o : Nat → Bool) : List Emission × DrawOutcome :=
  match drawGo o b.width b.buf b.prev b.prevValid (List.range b.height) DrawSt.init with
  | .ok st => (st.out, .ok { b with prevValid := true, prev := b.buf, buf := b.prev })
  | .ioerr st => (st.out, .ioerr)
  | .panic st => (st.out, .panic)

def oTrue : Nat → Bool := fun _ => true

/-- A 1×1 buffer about to draw the glyph `A` over a blank previous frame. -/
def bC2 : Buffer :=
  { prevValid := true, prev := [SPACE], buf := [chrA], width := 1, height := 1 }

/-- The state `bC2` reaches after one `draw`: frames swapped. -/
def bC2' : Buffer :=
  { prevValid := true, prev := [chrA], buf := [SPACE], width := 1, height := 1 }

/-- C2 counterexample: the claim says `draw(); draw()` with the current grid
unchanged between the calls emits zero bytes on the second call.  False:
`draw` swaps `current` and `prev`, so with no writes in between the second
call compares the old `prev` against the old `current` and re-emits every
cell that differed.  Concretely, drawing `bC2` yields `bC2'` untouched in
between, and the second call emits a cursor move, SGR codes and a glyph. -/
theorem c2_counterexample :
    (bC2.draw oTrue).2 = .ok bC2' ∧ (bC2'.draw oTrue).1 ≠ [] := by
  refine ⟨by decide, by decide⟩

theorem chrBeq_refl (c : Chr) : Chr.beq c c = true := by
  simp [Chr.beq]

theorem skipEq_self (l : List Chr) : ∀ x : Nat,
    skipEq l l x = if l.isEmpty then none else some none := by
  induction l with
  | nil => intro x; rfl
  | cons c cs ih =>
    intro x
    simp only [skipEq, chrBeq_refl, if_true]
    cases cs with
    | nil => rfl
    | cons c2 cs2 => rw [ih]; rfl

theorem drawGo_self (o : Nat → Bool) (wdt : Nat) (l : List Chr) (ys : List Nat)
    (st : DrawSt) : (drawGo o wdt l l true ys st).st = st := by
  induction ys generalizing st with
  | nil => rfl
  | cons y ys ih =>
    rw [drawGo]
    split
    · rw [drawRow]
      rw [if_pos rfl, skipEq_self]
      by_cases he : ((l.drop (y * wdt)).take wdt).isEmpty
      · simp [he, DRes.st]
      · simp [he, ih]
    · rfl

theorem draw_fst (b : Buffer) (o : Nat → Bool) :
    (b.draw o).1 =
      (drawGo o b.width b.buf b.prev b.prevValid (List.range b.height) DrawSt.init).st.out := by
  rw [Buffer.draw]
  split <;> simp_all [DRes.st]

/-- C2 amended: because `draw` swaps `current` and `prev`, "unchanged current"
must mean that the caller re-establishes the just-drawn frame in `current`
before the second call (as the event loop's `render()` does).  Under that
reading the second `draw` emits nothing: each row's skip loop consumes the
whole row. -/
theorem c2_amended (b : Buffer) (o oSecond : Nat → Bool) (b1 : Buffer)
    (h : (b.draw o).2 = .ok b1) :
    (Buffer.draw { b1 with buf := b.buf } oSecond).1 = [] := by
  have hb1 : b1 = { b with prevValid := true, prev := b.buf, buf := b.prev } := by
    cases hd : drawGo o b.width b.buf b.prev b.prevValid (List.range b.height) DrawSt.init with
    | ok st => rw [Buffer.draw, hd] at h; simp at h; exact h.symm
    | ioerr st => rw [Buffer.draw, hd] at h; simp at h
    | panic st => rw [Buffer.draw, hd] at h; simp at h
  subst hb1
  rw [draw_fst]
  simp only []
  rw [drawGo_self]
  rfl

theorem c2_amended_witness :
    (Buffer.draw { bC2' with buf := bC2.buf } oTrue).1 = [] :=
  c2_amended bC2 oTrue oTrue bC2' (by decide)

def oFail0 : Nat → Bool := fun n => n != 0

/-- The buffer used to exhibit the swallowed cursor-write error. -/
def bC9 : Buffer :=
  { prevValid := false, prev := [SPACE], buf := [chrA], width := 1, height := 1 }

/-- C9: the claim (and the spec's stated intent) is that `Buffer::draw`
propagates sink errors from every emission, including the per-row
cursor-position write.  The code's cursor-position `write!` lacks `?`, so its
error is discarded: with a sink that fails exactly on call 0 — the cursor
write, first emission of this draw — `draw` still returns `Ok`.  By contrast a
failure on call 1 (the first checked SGR write) is propagated. -/
theorem c9_cursor_error_ignored :
    (bC9.draw oFail0).1.head? = some (.cursor 1 1) ∧
    (bC9.draw oFail0).2 =
      .ok { prevValid := true, prev := [chrA], buf := [SPACE], width := 1, height := 1 } ∧
    (bC9.draw (fun n => n != 1)).2 = .ioerr := by
  refine ⟨by decide, by decide, by decide⟩

/-- One result of a call to the inner non-blocking sink's `write`, as seen
through `maybe` from `main.rs`: `ok n` bytes accepted, `wouldBlock`
(`maybe` turned `ErrorKind::WouldBlock` into `None`), or a real error. -/
inductive WStep
  | ok (n : Nat)
  | wouldBlock
  | err
deriving DecidableEq, Repr

/-- `DelayingWriter::write_todo` from `delaying.rs`, against a scripted inner
sink (one `WStep` consumed per `inner.write` call; an exhausted script acts
as would-block).  Returns the `written` progress flag, the remaining `todo`
queue and the unconsumed script; `none` models the panic of
`todo.drain(..n)` when the sink reports more bytes than `todo` holds. -/
def writeTodo : List WStep → List Nat → Bool → Option (Except Unit (Bool × List Nat × List WStep))
  | [], todo, w => some (.ok (w, todo, []))
  | .err :: _, _, _ => some (.error ())
  | .wouldBlock :: rest, todo, w => some (.ok (w, todo, rest))
  | .ok n :: rest, todo, w =>
    if n = 0 then some (.ok (w, todo, rest))
    else if n ≤ todo.length then writeTodo rest (todo.drop n) true
    else none

/-- The direct-write retry loop of `DelayingWriter::write`: starting from
`written`, repeat `inner.write(&buf[written..])` while `written < buf.len()`,
stopping on would-block or a zero-byte write, propagating errors. -/
def writeLoop : List WStep → List Nat → Nat → Except Unit (Nat × List WStep)
  | [], _, written => .ok (written, [])
  | s :: rest, buf, written =>
    if written < buf.length then
      match s with
      | .err => .error ()
      | .wouldBlock => .ok (written, rest)
      | .ok 0 => .ok (written, rest)
      | .ok (n + 1) => writeLoop rest buf (written + n + 1)
    else .ok (written, s :: rest)

/-- `DelayingWriter::write` from `delaying.rs`: drain `todo` first, write
`buf` directly only if `todo` is now empty, append any unwritten suffix of
`buf` to `todo`, and report `Ok(buf.len())`. -/
def delayWrite (steps : List WStep) (todo buf : List Nat) :
    Option (Except Unit (Nat × List Nat × List WStep)) :=
  match writeTodo steps todo false with
  | none => none
  | some (.error _) => some (.error ())
  | some (.ok (_, todo1, steps1)) =>
    if todo1.isEmpty then
      match writeLoop steps1 buf 0 with
      | .error _ => some (.error ())
      | .ok (written, steps2) =>
        let todo2 := if written < buf.length then todo1 ++ buf.drop written else todo1
        some (.ok (buf.length, todo2, steps2))
    else
      let todo2 := if 0 < buf.length then todo1 ++ buf.drop 0 else todo1
      some (.ok (buf.length, todo2, steps1))

theorem writeTodo_drop (steps : List WStep) : ∀ (todo : List Nat) (w w1 : Bool)
    (todo1 : List Nat) (steps1 : List WStep),
    writeTodo steps todo w = some (.ok (w1, todo1, steps1)) →
    ∃ j, j ≤ todo.length ∧ todo1 = todo.drop j := by
  induction steps with
  | nil =>
    intro todo w w1 todo1 steps1 h
    simp [writeTodo] at h
    exact ⟨0, Nat.zero_le _, by simp [h.2.1.symm]⟩
  | cons s rest ih =>
    intro todo w w1 todo1 steps1 h
    cases s with
    | err => simp [writeTodo] at h
    | wouldBlock =>
      simp [writeTodo] at h
      exact ⟨0, Nat.zero_le _, by simp [h.2.1.symm]⟩
    | ok n =>
      by_cases h0 : n = 0
      · subst h0
        simp [writeTodo] at h
        exact ⟨0, Nat.zero_le _, by simp [h.2.1.symm]⟩
      · by_cases hle : n ≤ todo.length
        · rw [writeTodo] at h
          rw [if_neg h0, if_pos hle] at h
          obtain ⟨j, hj, hjd⟩ := ih _ _ _ _ _ h
          refine ⟨n + j, ?_, ?_⟩
          · have := List.length_drop n todo
            omega
          · rw [hjd, List.drop_drop]
        · rw [writeTodo] at h
          rw [if_neg h0, if_neg hle] at h
          exact absurd h (by simp)

/-- C5: the `DelayingWriter::write` contract.  Whenever the call succeeds
(no non-would-block error, no panic), it reports exactly `buf.len()` bytes
written; the new pending queue is the undrained remainder of the old one
(a drop of some prefix, since `drain` only removes from the front) followed
by the unwritten suffix of `buf`; and when the drain left the queue
non-empty no byte of `buf` was written directly (`k = 0`, the whole of
`buf` is queued). -/
theorem c5_write_contract (steps : List WStep) (todo buf : List Nat)
    (n : Nat) (todo2 : List Nat) (steps2 : List WStep)
    (h : delayWrite steps todo buf = some (.ok (n, todo2, steps2))) :
    n = buf.length ∧
    ∃ j k, j ≤ todo.length ∧ todo2 = todo.drop j ++ buf.drop k ∧
      (todo.drop j ≠ [] → k = 0) := by
  unfold delayWrite at h
  cases hwt : writeTodo steps todo false with
  | none => rw [hwt] at h; simp at h
  | some r =>
    rw [hwt] at h
    cases r with
    | error e => simp at h
    | ok trip =>
      obtain ⟨w1, todo1, steps1⟩ := trip
      dsimp only at h
      obtain ⟨j, hj, hjd⟩ := writeTodo_drop _ _ _ _ _ _ hwt
      by_cases hemp : todo1.isEmpty
      · have htodo1 : todo1 = [] := List.isEmpty_iff.mp hemp
        rw [if_pos hemp] at h
        subst htodo1
        cases hwl : writeLoop steps1 buf 0 with
        | error e => rw [hwl] at h; simp at h
        | ok p =>
          obtain ⟨written, steps3⟩ := p
          rw [hwl] at h
          simp only [Option.some.injEq, Except.ok.injEq, Prod.mk.injEq] at h
          obtain ⟨hn, htd, hst⟩ := h
          refine ⟨hn.symm, j, written, hj, ?_, ?_⟩
          · rw [← htd, ← hjd]
            by_cases hw : written < buf.length
            · simp [hw]
            · have hzero : List.drop written buf = [] :=
                List.drop_eq_nil_of_le (Nat.le_of_not_lt hw)
              simp [hw, hzero]
          · intro hne
            exact absurd hjd.symm hne
      · rw [if_neg hemp] at h
        simp only [Option.some.injEq, Except.ok.injEq, Prod.mk.injEq] at h
        obtain ⟨hn, htd, hst⟩ := h
        refine ⟨hn.symm, j, 0, hj, ?_, fun _ => rfl⟩
        rw [← htd, ← hjd, List.drop_zero]
        by_cases hb : 0 < buf.length
        · simp [hb]
        · have hbe : buf = [] := List.length_eq_zero.mp (by omega)
          subst hbe
          simp

/-- C5 witness: a concrete run — pending `[1,2]` fully drained by a sink
accepting 2 bytes then blocking; `buf = [5,6]` is then attempted, the
exhausted script blocks, and the whole of `buf` is queued while `Ok(2)`
is returned. -/
theorem c5_write_contract_witness :
    2 = List.length [5, 6] ∧
    ∃ j k, j ≤ List.length [1, 2] ∧
      ([5, 6] : List Nat) = List.drop j [1, 2] ++ List.drop k [5, 6] ∧
      (List.drop j [1, 2] ≠ [] → k = 0) :=
  c5_write_contract [WStep.ok 2, WStep.wouldBlock] [1, 2] [5, 6] 2 [5, 6] [] rfl

/-- The `State` enum of the mouse/input decoder in `input.rs`. -/
inductive PState
  | normal
  | esc
  | csi
  | mouse
deriving DecidableEq, Repr

/-- The `Event` enum of `input.rs`. -/
inductive InEvent
  | unsupported (bytes : List Nat)
  | mouse (a b c : Nat)
deriving DecidableEq, Repr

/-- The `Parser` struct of `input.rs`. -/
structure Parser where
  state : PState
  arg1 : Option Nat
  arg2 : Option Nat
  arg3 : Option Nat
deriving DecidableEq, Repr

/-- `Parser::new` / `Parser::default` from `input.rs`. -/
def Parser.new : Parser := { state := .normal, arg1 := none, arg2 := none, arg3 := none }

/-- `Parser::feed` from `input.rs`: one byte in, the updated parser, the
returned passthrough boolean `was_normal && (state == Normal)`, and the
events handed to the performer. -/
def Parser.feed (p : Parser) (b : Nat) : Parser × Bool × List InEvent :=
  let res : Parser × List InEvent :=
    match p.state with
    | .normal => if b = 27 then ({ p with state := .esc }, []) else (p, [])
    | .esc =>
      if b = 91 then ({ p with state := .csi }, [])
      else ({ p with state := .normal }, [.unsupported [27, b]])
    | .csi =>
      if b = 77 then ({ p with state := .mouse }, [])
      else ({ p with state := .normal }, [.unsupported [27, 91, b]])
    | .mouse =>
      match p.arg1 with
      | none => ({ p with arg1 := some b }, [])
      | some a1 =>
        match p.arg2 with
        | none => ({ p with arg2 := some b }, [])
        | some a2 =>
          ({ p with arg1 := none, arg2 := none, arg3 := none, state := .normal },
            [.mouse a1 a2 b])
  (res.1, decide (p.state = .normal) && decide (res.1.state = .normal), res.2)

/-- C6: the passthrough boolean returned by `feed` is true exactly when the
decoder was in `Normal` before the byte and is in `Normal` after it, and —
equivalently — exactly when the decoder is in `Normal` and the byte is not
`ESC` (`0x1b`), i.e. the byte is part of no recognized escape or mouse
sequence. -/
theorem c6_feed_passthrough (p : Parser) (b : Nat) :
    ((p.feed b).2.1 = true ↔ (p.state = .normal ∧ (p.feed b).1.state = .normal)) ∧
    ((p.feed b).2.1 = true ↔ (p.state = .normal ∧ b ≠ 27)) := by
  cases hs : p.state with
  | normal =>
    by_cases hb : b = 27
    · subst hb
      simp [Parser.feed, hs]
    · simp [Parser.feed, hs, hb]
  | esc =>
    by_cases hb : b = 91
    · subst hb
      simp [Parser.feed, hs]
    · simp [Parser.feed, hs, hb]
  | csi =>
    by_cases hb : b = 77
    · subst hb
      simp [Parser.feed, hs]
    · simp [Parser.feed, hs, hb]
  | mouse =>
    cases h1 : p.arg1 with
    | none => simp [Parser.feed, hs, h1]
    | some a1 =>
      cases h2 : p.arg2 with
      | none => simp [Parser.feed, hs, h1, h2]
      | some a2 => simp [Parser.feed, hs, h1, h2]

/-- `RESIZE_LEFT` from `window.rs`. -/
def RESIZE_LEFT : Nat := 1
/-- `RESIZE_RIGHT` from `window.rs`. -/
def RESIZE_RIGHT : Nat := 2
/-- `RESIZE_BOTTOM` from `window.rs`. -/
def RESIZE_BOTTOM : Nat := 4

/-- The state of `WindowInner` from `window.rs` that the claims touch:
geometry, interaction state and the two screen grids.  The pty writer, child
handle and winsize setter are external resources; pty writes are returned as
byte lists and the winsize call is modelled as always succeeding. -/
structure WindowSt where
  x : Nat
  y : Nat
  width : Nat
  height : Nat
  dragOffset : Option (Nat × Nat)
  resize : Nat
  alternate : Bool
  screen : List (List Chr)
  screenOther : List (List Chr)
deriving DecidableEq, Repr

/-- `Vec::resize(width, SPACE)` on one screen row. -/
def resizeRow (w : Nat) (row : List Chr) : List Chr :=
  if w ≤ row.length then row.take w
  else row ++ List.replicate (w - row.length) SPACE

/-- The per-screen body of `WindowInner::resize`: re-width every row, then
re-height the row deque with fresh blank rows. -/
def resizeScreen (w h : Nat) (s : List (List Chr)) : List (List Chr) :=
  let s1 := s.map (resizeRow w)
  if h ≤ s1.length then s1.take h
  else s1 ++ List.replicate (h - s1.length) (List.replicate w SPACE)

/-- `WindowInner::resize` from `window.rs` (the pty winsize update is
modelled as succeeding). -/
def WindowSt.resizeInner (wst : WindowSt) (w h : Nat) : WindowSt :=
  { wst with
    width := w
    height := h
    screen := resizeScreen w h wst.screen
    screenOther := resizeScreen w h wst.screenOther }

/-- `Window::click` from `window.rs`.  Returns the new window state and the
bytes written to the child pty.  `u16` subtractions that can underflow
(`x - self.inner.x`) use release-mode wrapping (`wsub16`); the LEFT-resize
width is computed in `i32` and truncating-cast back to `u16` exactly as
`(width as i32 + (x as i32 - cx as i32)) as u16` does; `saturating_sub`
is `Nat` truncated subtraction. -/
def WindowSt.click (wst : WindowSt) (front : Bool) (m cx cy : Nat) :
    WindowSt × List Nat :=
  match wst.dragOffset with
  | some (rx, ry) =>
    let w1 := { wst with x := cx - rx, y := cy - ry }
    (if m &&& 3 = 3 then { w1 with dragOffset := none } else w1, [])
  | none =>
    if wst.resize ≠ 0 then
      let wx :=
        if wst.resize &&& RESIZE_LEFT = RESIZE_LEFT then
          (Int.toNat (((wst.width : Int) + ((wst.x : Int) - (cx : Int))) % 65536), cx)
        else if wst.resize &&& RESIZE_RIGHT = RESIZE_RIGHT then
          (cx - (1 + wst.x), wst.x)
        else (wst.width, wst.x)
      let h1 :=
        if wst.resize &&& RESIZE_BOTTOM = RESIZE_BOTTOM then cy - (1 + wst.y)
        else wst.height
      let w2 := ({ wst with x := wx.2 }).resizeInner wx.1 h1
      (if m &&& 3 = 3 then { w2 with resize := 0 } else w2, [])
    else
      let lx := wsub16 cx wst.x
      let ly := wsub16 cy wst.y
      if ly = 0 then ({ wst with dragOffset := some (lx, ly) }, [])
      else
        let r1 :=
          if lx = 0 then RESIZE_LEFT
          else if lx = 1 + wst.width then RESIZE_RIGHT
          else 0
        let r2 := if ly = 1 + wst.height then RESIZE_BOTTOM else 0
        let w1 := { wst with resize := r1 ||| r2 }
        if r1 ||| r2 = 0 ∧ front then
          (w1, [27, 91, 77, m % 256, (32 + lx % 256) % 256, (32 + ly % 256) % 256])
        else (w1, [])

/-- The width-3, interior-empty window used to exhibit the LEFT-resize wrap:
`x = 5`, `width = 3`, LEFT resize active. -/
def wstC3 : WindowSt :=
  { x := 5, y := 0, width := 3, height := 0, dragOffset := none,
    resize := RESIZE_LEFT, alternate := false, screen := [], screenOther := [] }

/-- C3 counterexample: the claim says the LEFT resize path, like RIGHT and
BOTTOM, never underflows and saturates at 0.  False: with `x = 5`,
`width = 3` and a mouse event at `cx = 10` the source computes
`(3 + (5 - 10)) as u16 = -2 as u16 = 65534`, a wrap-around, not 0. -/
theorem c3_counterexample :
    ((wstC3.click false 0 10 6).1).width = 65534 := by decide

/-- C3 amended: RIGHT and BOTTOM edge resizes use `saturating_sub`
(truncated subtraction, yielding 0 instead of underflowing), but the LEFT
path computes the new width in `i32` and truncating-casts to `u16`, so a
drag past the right edge wraps modulo 2^16 instead of saturating. -/
theorem c3_amended (wst : WindowSt) (front : Bool) (m cx cy : Nat)
    (hd : wst.dragOffset = none) (hr : wst.resize ≠ 0) :
    (wst.resize &&& RESIZE_LEFT ≠ RESIZE_LEFT →
      wst.resize &&& RESIZE_RIGHT = RESIZE_RIGHT →
      ((wst.click front m cx cy).1).width = cx - (1 + wst.x)) ∧
    (wst.resize &&& RESIZE_BOTTOM = RESIZE_BOTTOM →
      ((wst.click front m cx cy).1).height = cy - (1 + wst.y)) ∧
    (wst.resize &&& RESIZE_LEFT = RESIZE_LEFT →
      ((wst.click front m cx cy).1).width =
        Int.toNat (((wst.width : Int) + ((wst.x : Int) - (cx : Int))) % 65536)) := by
  refine ⟨fun hnl hrr => ?_, fun hb => ?_, fun hl => ?_⟩ <;>
    simp only [WindowSt.click, hd, hr, if_neg, WindowSt.resizeInner] <;>
    rw [if_pos hr]
  · rw [if_neg hnl, if_pos hrr]
    by_cases hm : m &&& 3 = 3 <;> simp [hm]
  · by_cases hl : wst.resize &&& RESIZE_LEFT = RESIZE_LEFT <;>
      by_cases hm : m &&& 3 = 3 <;>
      simp [hl, hb, hm]
  · rw [if_pos hl]
    by_cases hm : m &&& 3 = 3 <;> simp [hm]

/-- A window with RIGHT and BOTTOM resize active, used as the C3 witness. -/
def wstC3w : WindowSt :=
  { x := 0, y := 1, width := 4, height := 2, dragOffset := none,
    resize := 6, alternate := false, screen := [], screenOther := [] }

theorem c3_amended_witness :
    (wstC3w.resize &&& RESIZE_LEFT ≠ RESIZE_LEFT →
      wstC3w.resize &&& RESIZE_RIGHT = RESIZE_RIGHT →
      ((wstC3w.click false 3 10 9).1).width = 10 - (1 + wstC3w.x)) ∧
    (wstC3w.resize &&& RESIZE_BOTTOM = RESIZE_BOTTOM →
      ((wstC3w.click false 3 10 9).1).height = 9 - (1 + wstC3w.y)) ∧
    (wstC3w.resize &&& RESIZE_LEFT = RESIZE_LEFT →
      ((wstC3w.click false 3 10 9).1).width =
        Int.toNat (((wstC3w.width : Int) + ((wstC3w.x : Int) - (10 : Int))) % 65536)) :=
  c3_amended wstC3w false 3 10 9 rfl (by decide)

theorem wsub16_eq (a b : Nat) (hb : b ≤ a) (ha : a < 65536) :
    wsub16 a b = a - b := by
  unfold wsub16
  rw [Nat.mod_eq_of_lt ha, Nat.mod_eq_of_lt (lt_of_le_of_lt hb ha)]
  have h1 : a + 65536 - b = (a - b) + 65536 := by omega
  rw [h1, Nat.add_mod_right]
  exact Nat.mod_eq_of_lt (by omega)

/-- C8: with `front = true`, no active drag, no active resize, and local
coordinates `(lx, ly) = (cx − x, cy − y)` that hit the interior (so `ly ≠ 0`,
`lx ∉ {0, width+1}`, `ly ≠ height+1` — no drag starts, no resize bit is set),
`Window::click` writes exactly the six bytes
`ESC, '[', 'M', m, 0x20+lx, 0x20+ly` to the child pty; with `front = false`
it writes nothing.  The coordinate bounds express the `u16`/`u8` domains of
the source (`lx, ly ≤ 223` is the X10 byte-encoding range: `0x20 + 223` is
the last value fitting in a byte). -/
theorem c8_forward_bytes (wst : WindowSt) (m cx cy : Nat)
    (hd : wst.dragOffset = none) (hr : wst.resize = 0)
    (hxle : wst.x ≤ cx) (hyle : wst.y ≤ cy)
    (hcx : cx < 65536) (hcy : cy < 65536) (hm : m < 256)
    (hly0 : cy - wst.y ≠ 0)
    (hlx0 : cx - wst.x ≠ 0) (hlxw : cx - wst.x ≠ 1 + wst.width)
    (hlyh : cy - wst.y ≠ 1 + wst.height)
    (hlx223 : cx - wst.x ≤ 223) (hly223 : cy - wst.y ≤ 223) :
    (wst.click true m cx cy).2 =
      [27, 91, 77, m, 32 + (cx - wst.x), 32 + (cy - wst.y)] ∧
    (wst.click false m cx cy).2 = [] := by
  have hlx := wsub16_eq cx wst.x hxle hcx
  have hly := wsub16_eq cy wst.y hyle hcy
  have hmb : m % 256 = m := Nat.mod_eq_of_lt hm
  have hbx : (32 + (cx - wst.x) % 256) % 256 = 32 + (cx - wst.x) := by omega
  have hby : (32 + (cy - wst.y) % 256) % 256 = 32 + (cy - wst.y) := by omega
  constructor <;>
  · simp only [WindowSt.click, hd, hr]
    rw [if_neg (by simp), hlx, hly, if_neg hly0, if_neg hlx0, if_neg hlxw,
      if_neg hlyh]
    simp [hmb, hbx, hby]

/-- The idle front window used as the C8 witness: `x = 1, y = 1`, interior
`5 × 3`; the click at `(3, 3)` is an interior hit with `lx = ly = 2`. -/
def wstC8w : WindowSt :=
  { x := 1, y := 1, width := 5, height := 3, dragOffset := none,
    resize := 0, alternate := false, screen := [], screenOther := [] }

theorem c8_forward_bytes_witness :
    (wstC8w.click true 0 3 3).2 = [27, 91, 77, 0, 32 + (3 - wstC8w.x), 32 + (3 - wstC8w.y)] ∧
    (wstC8w.click false 0 3 3).2 = [] :=
  c8_forward_bytes wstC8w 0 3 3 rfl rfl (by decide) (by decide) (by decide)
    (by decide) (by decide) (by decide) (by decide) (by decide) (by decide)
    (by decide) (by decide)

/-- The index clamping of `WindowInner::get`: `v.min(dim as usize - 1)`.
With `dim = 0` the `usize` subtraction wraps (release mode) and the `min`
keeps `v` itself. -/
def clampIdx (v dim : Nat) : Nat := if dim = 0 then v else min v (dim - 1)

/-- `WindowInner::get` from `window.rs` as a read: the two `expect` calls
panic (`none`) when the clamped index still misses the deque or the row. -/
def WindowSt.get (wst : WindowSt) (x y : Nat) : Option Chr :=
  match wst.screen.get? (clampIdx y wst.height) with
  | none => none
  | some row => row.get? (clampIdx x wst.width)

/-- `WindowInner::get` used as the left side of an assignment: apply `f` to
the addressed cell. -/
def WindowSt.setCell (wst : WindowSt) (x y : Nat) (f : Chr → Chr) :
    Option WindowSt :=
  let yi := clampIdx y wst.height
  let xi := clampIdx x wst.width
  match wst.screen.get? yi with
  | none => none
  | some row =>
    match row.get? xi with
    | none => none
    | some c => some { wst with screen := wst.screen.set yi (row.set xi (f c)) }

/-- The `Event::Char` arm of `WindowInner::write`. -/
def handleChar (wst : WindowSt) (x y : Nat) (content : Char)
    (bold underlined : Bool) (color : Color) : Option WindowSt :=
  wst.setCell x y fun c =>
    { c with
      content := content
      flags := (if bold then EFFECT_BOLD else 0) |||
        (if underlined then EFFECT_UNDERLINE else 0)
      fg := color }

/-- The cell updates of the `Event::Rect` arm, in source iteration order. -/
def rectGo (color : Color) : List (Nat × Nat) → WindowSt → Option WindowSt
  | [], wst => some wst
  | p :: rest, wst =>
    match wst.setCell p.1 p.2 (fun c => { c with content := ' ', bg := color }) with
    | none => none
    | some w1 => rectGo color rest w1

/-- The `Event::Rect` arm of `WindowInner::write`: `for x in x..x+w` outer,
`for y in y..y+h` inner. -/
def handleRect (wst : WindowSt) (x y w h : Nat) (color : Color) : Option WindowSt :=
  rectGo color
    ((List.range w).flatMap fun dx => (List.range h).map fun dy => (x + dx, y + dy)) wst

/-- The per-axis offset transformation of the `Event::Move` arm:
`let rel_x = if to_x <= from_x { rel_x } else { w - rel_x };`. -/
def moveRel (toc fromc w r : Nat) : Nat := if toc ≤ fromc then r else w - r

/-- The cell copies of the `Event::Move` arm in source iteration order: read
the source cell at `to + rel`, then write it at `from + rel` (the right-hand
side of the Rust assignment is evaluated first). -/
def moveGo (fx fy tx ty w h : Nat) : List (Nat × Nat) → WindowSt → Option WindowSt
  | [], wst => some wst
  | p :: rest, wst =>
    let rx := moveRel tx fx w p.1
    let ry := moveRel ty fy h p.2
    match wst.get (tx + rx) (ty + ry) with
    | none => none
    | some v =>
      match wst.setCell (fx + rx) (fy + ry) (fun _ => v) with
      | none => none
      | some w1 => moveGo fx fy tx ty w h rest w1

/-- The `Event::Move` arm of `WindowInner::write`. -/
def handleMove (wst : WindowSt) (fx fy tx ty w h : Nat) : Option WindowSt :=
  moveGo fx fy tx ty w h
    ((List.range w).flatMap fun rx => (List.range h).map fun ry => (rx, ry)) wst

/-- Modelled from the claim (C4): a block copy in which every visited offset
lies in `[0,w) × [0,h)` and overlapping rectangles do not corrupt
not-yet-copied source cells — each destination cell `from + off` receives the
*original* value of `to + off`.  Used only to compare the claimed behaviour
with the source's. -/
def moveSpecClaim (wst : WindowSt) (fx fy tx ty w h : Nat) : Option WindowSt :=
  ((List.range w).flatMap fun rx => (List.range h).map fun ry => (rx, ry)).foldlM
    (fun acc p => do
      let v ← wst.get (tx + p.1) (ty + p.2)
      acc.setCell (fx + p.1) (fy + p.2) fun _ => v) wst

/-- A 4×1 window with distinct interior cells `a b c d`. -/
def wstC4 : WindowSt :=
  { x := 0, y := 0, width := 4, height := 1, dragOffset := none, resize := 0,
    alternate := false
    screen := [[Chr.fromChar 'a', Chr.fromChar 'b', Chr.fromChar 'c', Chr.fromChar 'd']]
    screenOther := [[SPACE, SPACE, SPACE, SPACE]] }

/-- C4 counterexample: for `Move{from_x=0, from_y=0, to_x=1, to_y=0, w=2, h=1}`
on the row `a b c d`, the source's backward iteration uses offsets `w - rel`,
i.e. `2` then `1` — offset `0` is never copied, offset `2 = w` is out of
`[0,w)`, and the overlapping copy reads the already-overwritten cell,
producing `a d d d`.  The copy described by the claim (offsets in `[0,w)`,
no corruption of not-yet-copied source cells) produces `b c c d`. -/
theorem c4_counterexample :
    handleMove wstC4 0 0 1 0 2 1 =
      some { wstC4 with
        screen := [[Chr.fromChar 'a', Chr.fromChar 'd', Chr.fromChar 'd', Chr.fromChar 'd']] } ∧
    moveSpecClaim wstC4 0 0 1 0 2 1 =
      some { wstC4 with
        screen := [[Chr.fromChar 'b', Chr.fromChar 'c', Chr.fromChar 'c', Chr.fromChar 'd']] } ∧
    ([[Chr.fromChar 'a', Chr.fromChar 'd', Chr.fromChar 'd', Chr.fromChar 'd']] :
        List (List Chr)) ≠
      [[Chr.fromChar 'b', Chr.fromChar 'c', Chr.fromChar 'c', Chr.fromChar 'd']] := by
  refine ⟨by decide, by decide, by decide⟩

/-- C4 amended: along each axis the iteration is forward (offsets exactly
`r ∈ [0,w)`) when `to ≤ from` — `from` being the written-to corner — but when
`from < to` the visited offsets are `w − r` for `r ∈ [0,w)`, i.e. they run
backward through `[1,w]`: offset `0` is skipped, offset `w` lies outside the
rectangle (it is only clamped back in range by the cell accessor), and
overlapping rectangles are not protected from corruption. -/
theorem c4_amended (toc fromc w r : Nat) (hr : r < w) :
    (toc ≤ fromc → moveRel toc fromc w r = r ∧ moveRel toc fromc w r < w) ∧
    (fromc < toc → moveRel toc fromc w r = w - r ∧
      1 ≤ moveRel toc fromc w r ∧ moveRel toc fromc w r ≤ w) := by
  unfold moveRel
  constructor
  · intro hle
    rw [if_pos hle]
    exact ⟨rfl, hr⟩
  · intro hlt
    rw [if_neg (by omega)]
    exact ⟨rfl, by omega, by omega⟩

theorem c4_amended_witness :
    ((1 : Nat) ≤ 0 → moveRel 1 0 2 0 = 0 ∧ moveRel 1 0 2 0 < 2) ∧
    ((0 : Nat) < 1 → moveRel 1 0 2 0 = 2 - 0 ∧
      1 ≤ moveRel 1 0 2 0 ∧ moveRel 1 0 2 0 ≤ 2) :=
  c4_amended 1 0 2 0 (by decide)

theorem setCell_zero (wst : WindowSt)
    (hlen : wst.screen.length = wst.height)
    (hrow : ∀ row ∈ wst.screen, row.length = wst.width)
    (h0 : wst.width = 0 ∨ wst.height = 0) (x y : Nat) (f : Chr → Chr) :
    wst.setCell x y f = none := by
  rcases h0 with hw | hh
  · simp only [WindowSt.setCell]
    cases hg : wst.screen.get? (clampIdx y wst.height) with
    | none => rfl
    | some row =>
      have hmem : row ∈ wst.screen := List.get?_mem hg
      have hrl : row.length = wst.width := hrow row hmem
      have hnone : row.get? (clampIdx x wst.width) = none := by
        apply List.get?_eq_none.mpr
        omega
      dsimp only
      rw [hnone]
  · have hs : wst.screen = [] := List.length_eq_zero.mp (by omega)
    simp [WindowSt.setCell, hs]

theorem get_zero (wst : WindowSt)
    (hlen : wst.screen.length = wst.height)
    (hrow : ∀ row ∈ wst.screen, row.length = wst.width)
    (h0 : wst.width = 0 ∨ wst.height = 0) (x y : Nat) :
    wst.get x y = none := by
  rcases h0 with hw | hh
  · simp only [WindowSt.get]
    cases hg : wst.screen.get? (clampIdx y wst.height) with
    | none => rfl
    | some row =>
      have hmem : row ∈ wst.screen := List.get?_mem hg
      have hrl : row.length = wst.width := hrow row hmem
      dsimp only
      apply List.get?_eq_none.mpr
      omega
  · have hs : wst.screen = [] := List.length_eq_zero.mp (by omega)
    simp [WindowSt.get, hs]

theorem offsetsList_ne_nil (w h : Nat) (hw : 0 < w) (hh : 0 < h)
    (f : Nat → Nat → Nat × Nat) :
    (List.range w).flatMap (fun a => (List.range h).map fun b => f a b) ≠ [] := by
  intro hc
  have hmem : f 0 0 ∈
      (List.range w).flatMap (fun a => (List.range h).map fun b => f a b) := by
    rw [List.mem_flatMap]
    exact ⟨0, List.mem_range.mpr hw, List.mem_map.mpr ⟨0, List.mem_range.mpr hh, rfl⟩⟩
  rw [hc] at hmem
  exact List.not_mem_nil _ hmem

/-- C10: a window whose interior width or height is 0 — reachable because the
RIGHT edge-resize saturates the new width to 0 (last conjunct) — panics on
any subsequent `Char` event, non-empty `Rect` event or non-empty `Move`
event: the accessor `get` clamps with `width - 1` / `height - 1`, which
wraps when the dimension is 0 and then misses the (empty) grid, so the
`expect` calls fire. -/
theorem c10_zero_dim_panics (wst : WindowSt)
    (hlen : wst.screen.length = wst.height)
    (hrow : ∀ row ∈ wst.screen, row.length = wst.width)
    (h0 : wst.width = 0 ∨ wst.height = 0) :
    (∀ x y c bold und col, handleChar wst x y c bold und col = none) ∧
    (∀ x y w h col, 0 < w → 0 < h → handleRect wst x y w h col = none) ∧
    (∀ fx fy tx ty w h, 0 < w → 0 < h → handleMove wst fx fy tx ty w h = none) ∧
    (∀ (wst2 : WindowSt) (m cx cy : Nat), wst2.dragOffset = none →
      wst2.resize = RESIZE_RIGHT → cx ≤ wst2.x + 1 →
      ((wst2.click false m cx cy).1).width = 0) := by
  refine ⟨?_, ?_, ?_, ?_⟩
  · intro x y c bold und col
    exact setCell_zero wst hlen hrow h0 x y _
  · intro x y w h col hwp hhp
    unfold handleRect
    cases hc : (List.range w).flatMap
        (fun dx => (List.range h).map fun dy => (x + dx, y + dy)) with
    | nil => exact absurd hc (offsetsList_ne_nil w h hwp hhp _)
    | cons p rest => simp [rectGo, setCell_zero wst hlen hrow h0]
  · intro fx fy tx ty w h hwp hhp
    unfold handleMove
    cases hc : (List.range w).flatMap
        (fun rx => (List.range h).map fun ry => (rx, ry)) with
    | nil => exact absurd hc (offsetsList_ne_nil w h hwp hhp _)
    | cons p rest => simp [moveGo, get_zero wst hlen hrow h0]
  · intro wst2 m cx cy hd hr hcx
    simp only [WindowSt.click, hd, hr]
    rw [if_pos (by decide : (RESIZE_RIGHT : Nat) ≠ 0)]
    rw [if_neg (by decide : ¬(RESIZE_RIGHT &&& RESIZE_LEFT = RESIZE_LEFT))]
    rw [if_pos (by decide : RESIZE_RIGHT &&& RESIZE_RIGHT = RESIZE_RIGHT)]
    by_cases hm : m &&& 3 = 3 <;> simp [hm, WindowSt.resizeInner] <;> omega

/-- A window whose width was resized down to 0: one row, zero columns. -/
def wstC10 : WindowSt :=
  { x := 0, y := 0, width := 0, height := 1, dragOffset := none, resize := 0,
    alternate := false, screen := [[]], screenOther := [[]] }

theorem c10_zero_dim_panics_witness :
    handleChar wstC10 0 0 'x' false false (Color.ansi 0) = none :=
  (c10_zero_dim_panics wstC10 rfl (by decide) (Or.inl rfl)).1 0 0 'x' false false
    (Color.ansi 0)

/-- `Window::inside` from `window.rs`: a dragging or resizing window captures
every event; otherwise hit-test against the `(width+2) × (height+2)` frame
(the `u16` sums wrap in release mode). -/
def WindowSt.inside (wst : WindowSt) (x y : Nat) : Bool :=
  wst.dragOffset.isSome || decide (wst.resize ≠ 0) ||
    (decide (x ≥ wst.x) && decide (y ≥ wst.y) &&
      decide (x ≤ u16w (wst.x + wst.width + 2)) &&
      decide (y ≤ u16w (wst.y + wst.height + 2)))

/-- The `Workspace` struct from `workspace.rs`: the framebuffer, the next
token to allocate, and the insertion-ordered window map modelled as an
association list (`LinkedHashMap` iteration order; the back entry is the
front window).  The shell command and the poll handle are external. -/
structure Workspace where
  buffer : Buffer
  token : Nat
  windows : List (Nat × WindowSt)
deriving DecidableEq, Repr

/-- `Window::new` from `window.rs` (geometry and screens; pty, winsize setter
and child spawn are external): the interior is the frame size minus 2 on
each axis (`u16` subtraction, wrapping in release mode below 2). -/
def windowNew (x y width height : Nat) : WindowSt :=
  { x := x, y := y, width := wsub16 width 2, height := wsub16 height 2,
    dragOffset := none, resize := 0, alternate := false,
    screen := List.replicate (wsub16 height 2) (List.replicate (wsub16 width 2) SPACE),
    screenOther := List.replicate (wsub16 height 2) (List.replicate (wsub16 width 2) SPACE) }

/-- `Workspace::add` from `workspace.rs`: insert at the back of the map under
the next monotonically-allocated token (poll registration is external). -/
def Workspace.add (ws : Workspace) (w : WindowSt) : Workspace :=
  { ws with windows := ws.windows ++ [(ws.token, w)], token := ws.token + 1 }

/-- The x-coordinate translation at the top of `Workspace::click`:
`(cx8.saturating_sub(0o40 + 1) as u16).min(width - 1)` — the `width - 1` is
`u16` and wraps when the framebuffer width is 0. -/
def Workspace.clickX (ws : Workspace) (cx8 : Nat) : Nat :=
  min (cx8 - 33) (wsub16 ws.buffer.width 1)

/-- The y-coordinate translation at the top of `Workspace::click`. -/
def Workspace.clickY (ws : Workspace) (cy8 : Nat) : Nat :=
  min (cy8 - 33) (wsub16 ws.buffer.height 1)

/-- `Workspace::click` from `workspace.rs`: translate the report coordinates,
find the front-most window containing them (iterating back to front),
dispatch to it with `front` = "it is the last entry", raise it (remove and
re-insert at the back) when it was not front and the event is a drag or a
release, and spawn a centered window on a release that hit nothing. -/
def Workspace.click (ws : Workspace) (m cx8 cy8 : Nat) : Workspace :=
  let x := ws.clickX cx8
  let y := ws.clickY cy8
  match ws.windows.reverse.find? (fun kw => kw.2.inside x y) with
  | some (key, w) =>
    let front : Bool := decide ((ws.windows.getLast?.map Prod.fst) = some key)
    let w1 := (w.click front m x y).1
    let windows1 := ws.windows.map fun kw => if kw.1 = key then (key, w1) else kw
    if front = false ∧ (m &&& 64 = 64 ∨ m &&& 3 = 3) then
      { ws with windows := windows1.filter (fun kw => kw.1 != key) ++ [(key, w1)] }
    else { ws with windows := windows1 }
  | none =>
    if m &&& 3 = 3 then
      let width := min 80 ws.buffer.width
      let height := min 32 ws.buffer.height
      ws.add (windowNew (ws.buffer.width / 2 - width / 2)
        (ws.buffer.height / 2 - height / 2) width height)
    else ws

/-- C7: the windows map is kept in insertion order (modelled as a list whose
back entry is the focused, front-most window — the entry `Workspace::write`
and the `front` flag use); when `Workspace::click` dispatches to a window
that is not the back entry and the event is a release (`m&3 == 3`) or a
motion/drag (`m&0x40`), that window's token is re-inserted at the back:
after the call it is the last key of the map. -/
theorem c7_click_raises (ws : Workspace) (m cx8 cy8 : Nat) (key : Nat) (w : WindowSt)
    (hfind : ws.windows.reverse.find?
        (fun kw => kw.2.inside (ws.clickX cx8) (ws.clickY cy8)) = some (key, w))
    (hfront : (ws.windows.getLast?.map Prod.fst) ≠ some key)
    (hm : m &&& 64 = 64 ∨ m &&& 3 = 3) :
    ((ws.click m cx8 cy8).windows.getLast?.map Prod.fst) = some key := by
  simp only [Workspace.click]
  rw [hfind]
  dsimp only
  have hfb : decide ((ws.windows.getLast?.map Prod.fst) = some key) = false :=
    decide_eq_false hfront
  rw [if_pos (And.intro hfb hm)]
  rw [List.getLast?_concat]
  rfl

/-- A background window at the origin (interior 3×3). -/
def winA : WindowSt :=
  { x := 0, y := 0, width := 3, height := 3, dragOffset := none, resize := 0,
    alternate := false, screen := [], screenOther := [] }

/-- The front window, far to the right so the witness click misses it. -/
def winB : WindowSt :=
  { x := 30, y := 0, width := 3, height := 3, dragOffset := none, resize := 0,
    alternate := false, screen := [], screenOther := [] }

/-- Two windows: token 2 (`winA`, behind) and token 3 (`winB`, front). -/
def wsC7 : Workspace :=
  { buffer := Buffer.new 40 20, token := 4, windows := [(2, winA), (3, winB)] }

theorem c7_click_raises_witness :
    ((wsC7.click 3 36 36).windows.getLast?.map Prod.fst) = some 2 :=
  c7_click_raises wsC7 3 36 36 2 winA (by decide) (by decide) (Or.inr rfl)
